import Mathlib

/-!
Verification of the task-tracker in src/nui/demo/py/demo.py.

The program is a single-threaded console task manager: a Storage class
holding an in-memory dict { tasks, stats { created, completed } } mirrored to
a JSON file, and a TaskManager layer with create / list / complete / delete /
search / stats operations.

Modelling conventions:
* Machine state is `Storage`: the in-memory `StoreState` (the well-shaped
  `self.data` dict) plus the backing file, modelled at the JSON-value level
  (`FileContent`).  Python's json.dump/json.load pair is the identity on the
  JSON values produced here, so the file holds a `Json` value; a missing file
  and an unreadable-or-unparsable file are the other two `FileContent` cases.
* Console reading (`input(...)` and the `.strip()` of the raw line) is
  presentation glue outside the core (spec excludes the menu/input loop);
  every modelled operation receives the already-read, stripped line.  All
  remaining processing (`.lower()`, validation, the mutation itself) is in
  the model, translated line by line from the source.
* `generate_id()` (random uuid4 truncation) and `now()` are environment
  inputs; the functions that call them take the produced string as an
  explicit argument.
* Python `str.lower` is modelled by `lowerStr` (ASCII case folding;
  all strings appearing in the claims are ASCII), and the substring test
  `a in b` by the executable `containsSub` defined below.
-/

namespace TaskApp

/-- A task record: the dict built in TaskManager.create_task
(keys id, title, description, priority, created_at, completed). -/
structure Task where
  id : String
  title : String
  description : String
  priority : String
  created_at : String
  completed : Bool
deriving DecidableEq

/-- The stats aggregate: `self.data["stats"]`, counters created / completed. -/
structure Stats where
  created : Nat
  completed : Nat
deriving DecidableEq

/-- The well-shaped in-memory state `self.data`: task list plus stats. -/
structure StoreState where
  tasks : List Task
  stats : Stats
deriving DecidableEq

/-- JSON values, for the backing file (restricted to the constructors the
program ever writes or reads). -/
inductive Json where
  | str (s : String)
  | num (n : Nat)
  | bool (b : Bool)
  | arr (elems : List Json)
  | obj (members : List (String × Json))

/-- The backing file: missing, unreadable-or-unparsable (open/json.load
raises), or holding a parsed JSON value. -/
inductive FileContent where
  | missing
  | corrupt
  | content (j : Json)

/-- A Storage object: in-memory data plus the backing file it mirrors. -/
structure Storage where
  data : StoreState
  file : FileContent

/-! ### String utilities: Python's substring operator `in` -/

/-- Executable test that the first list is an initial segment of the
second. -/
def leadsWith : List Char → List Char → Bool
  | [], _ => true
  | _ :: _, [] => false
  | a :: as, b :: bs => a == b && leadsWith as bs

/-- Executable substring test on character lists: models Python's
`needle in hay`. -/
def containsSub (needle : List Char) : List Char → Bool
  | [] => needle.isEmpty
  | c :: rest => leadsWith needle (c :: rest) || containsSub needle rest

/-- `containsStr hay needle` models the Python expression `needle in hay`. -/
def containsStr (hay needle : String) : Bool :=
  containsSub needle.data hay.data

/-- Models Python `str.lower()`: lowercase every character (ASCII folding;
every string the program compares case-insensitively here is ASCII). -/
def lowerStr (s : String) : String :=
  String.mk (s.data.map Char.toLower)

/-! ### JSON encoding of the state (what Storage.save writes) -/

/-- The JSON object json.dump writes for one task dict. -/
def encodeTask (t : Task) : Json :=
  Json.obj [("id", Json.str t.id), ("title", Json.str t.title),
    ("description", Json.str t.description), ("priority", Json.str t.priority),
    ("created_at", Json.str t.created_at), ("completed", Json.bool t.completed)]

/-- The JSON object for the stats dict. -/
def encodeStats (s : Stats) : Json :=
  Json.obj [("created", Json.num s.created), ("completed", Json.num s.completed)]

/-- The full JSON value json.dump writes for `self.data`. -/
def encodeState (s : StoreState) : Json :=
  Json.obj [("tasks", Json.arr (s.tasks.map encodeTask)), ("stats", encodeStats s.stats)]

/-- Python dict key access `members[key]`, as an Option (none = KeyError). -/
def lookupJ : List (String × Json) → String → Option Json
  | [], _ => none
  | (k, v) :: rest, key => if k = key then some v else lookupJ rest key

/-- Reading one task dict back into a record, mirroring the field accesses
the program performs (`task["id"]`, ..., `task["completed"]`). -/
def decodeTask : Json → Option Task
  | Json.obj ms =>
    match lookupJ ms "id", lookupJ ms "title", lookupJ ms "description",
        lookupJ ms "priority", lookupJ ms "created_at", lookupJ ms "completed" with
    | some (Json.str i), some (Json.str t), some (Json.str d),
        some (Json.str p), some (Json.str c), some (Json.bool b) =>
      some { id := i, title := t, description := d, priority := p,
             created_at := c, completed := b }
    | _, _, _, _, _, _ => none
  | _ => none

/-- Reading back a list of task dicts. -/
def decodeTasks : List Json → Option (List Task)
  | [] => some []
  | j :: rest =>
    match decodeTask j, decodeTasks rest with
    | some t, some ts => some (t :: ts)
    | _, _ => none

/-- Reading a whole persisted value back into a `StoreState`, mirroring the
accesses `data["tasks"]`, `data["stats"]["created"]`,
`data["stats"]["completed"]` the program performs on `self.data`. -/
def decodeState : Json → Option StoreState
  | Json.obj ms =>
    match lookupJ ms "tasks", lookupJ ms "stats" with
    | some (Json.arr js), some (Json.obj sms) =>
      match decodeTasks js, lookupJ sms "created", lookupJ sms "completed" with
      | some ts, some (Json.num cr), some (Json.num co) =>
        some { tasks := ts, stats := { created := cr, completed := co } }
      | _, _, _ => none
    | _, _ => none
  | _ => none

/-- The dict literal Storage.__init__ assigns to `self.data`. -/
def defaultData : Json :=
  Json.obj [("tasks", Json.arr []),
    ("stats", Json.obj [("created", Json.num 0), ("completed", Json.num 0)])]

/-- The empty well-shaped state (no tasks, both counters zero). -/
def emptyState : StoreState :=
  { tasks := [], stats := { created := 0, completed := 0 } }

/-- Storage.load at the raw-dict level: given the file and the current
`self.data` value, returns the new `self.data` and whether the warning was
printed.  A missing file leaves data untouched; an exception while opening or
parsing (FileContent.corrupt) prints the warning and leaves data untouched;
otherwise `self.data = json.load(f)` installs the parsed value as-is, with no
shape validation. -/
def loadRaw : FileContent → Json → Json × Bool
  | FileContent.missing, d => (d, false)
  | FileContent.corrupt, d => (d, true)
  | FileContent.content j, _ => (j, false)

/-- Storage.get_tasks at the raw-dict level: `self.data["tasks"]`
(none models the TypeError/KeyError raised on a wrong-shaped value). -/
def getTasksRaw : Json → Option Json
  | Json.obj ms => lookupJ ms "tasks"
  | _ => none

/-! ### Storage methods (typed level) -/

/-- Storage.save: rewrite the backing file with the full in-memory state. -/
def Storage.save (st : Storage) : Storage :=
  { st with file := FileContent.content (encodeState st.data) }

/-- Storage.get_tasks. -/
def Storage.get_tasks (st : Storage) : List Task :=
  st.data.tasks

/-- Storage.get_stats. -/
def Storage.get_stats (st : Storage) : Stats :=
  st.data.stats

/-- Storage.add_task: append, increment created, save. -/
def Storage.add_task (st : Storage) (t : Task) : Storage :=
  Storage.save
    { st with data :=
      { tasks := st.data.tasks ++ [t],
        stats := { st.data.stats with created := st.data.stats.created + 1 } } }

/-- The loop body of Storage.update_task: walk the list, patch the first
record whose id matches, report whether a record was found.  The only patch
the program ever passes is `{"completed": True}`, i.e. a record update. -/
def listUpdate (upd : Task → Task) (task_id : String) : List Task → List Task × Bool
  | [] => ([], false)
  | t :: rest =>
    if t.id = task_id then (upd t :: rest, true)
    else
      let p := listUpdate upd task_id rest
      (t :: p.1, p.2)

/-- Storage.update_task: patch the first matching record, save and return
True on a hit, return False (leaving data and file untouched) otherwise. -/
def Storage.update_task (st : Storage) (task_id : String) (upd : Task → Task) :
    Storage × Bool :=
  let p := listUpdate upd task_id st.data.tasks
  if p.2 then
    (Storage.save { st with data := { st.data with tasks := p.1 } }, true)
  else (st, false)

/-- Storage.delete_task: keep the records whose id differs, save and return
True when the length changed, else return False without saving. -/
def Storage.delete_task (st : Storage) (task_id : String) : Storage × Bool :=
  let kept := st.data.tasks.filter (fun t => t.id != task_id)
  let st1 : Storage := { st with data := { st.data with tasks := kept } }
  if kept.length ≠ st.data.tasks.length then (Storage.save st1, true)
  else (st1, false)

/-- Storage.increment_completed: bump the completed counter and save. -/
def Storage.increment_completed (st : Storage) : Storage :=
  Storage.save
    { st with data :=
      { st.data with stats :=
        { st.data.stats with completed := st.data.stats.completed + 1 } } }

/-! ### TaskManager methods -/

/-- The valid-priority list from TaskManager.create_task. -/
def priorities : List String := ["low", "medium", "high"]

/-- The task dict TaskManager.create_task builds: lowercase the priority
input, default it to "medium" unless it is low/medium/high, stamp the fresh
id and timestamp (environment inputs, passed explicitly), completed = False. -/
def TaskManager.make_task (fresh_id title description priority_input created_at : String) :
    Task :=
  let p0 := lowerStr priority_input
  let p := if p0 ∈ priorities then p0 else "medium"
  { id := fresh_id, title := title, description := description,
    priority := p, created_at := created_at, completed := false }

/-- TaskManager.create_task: build the task dict and Storage.add_task it. -/
def TaskManager.create_task (st : Storage)
    (fresh_id title description priority_input created_at : String) : Storage :=
  st.add_task (TaskManager.make_task fresh_id title description priority_input created_at)

/-- TaskManager.complete_task: Storage.update_task with `{"completed": True}`;
on success also Storage.increment_completed; returns found / not-found. -/
def TaskManager.complete_task (st : Storage) (task_id : String) : Storage × Bool :=
  let p := st.update_task task_id (fun t => { t with completed := true })
  if p.2 then (p.1.increment_completed, true) else (p.1, false)

/-- TaskManager.delete_task: delegate to Storage.delete_task. -/
def TaskManager.delete_task (st : Storage) (task_id : String) : Storage × Bool :=
  st.delete_task task_id

/-- The records TaskManager.list_tasks prints: all of them when show_all,
otherwise the not-completed ones, in stored order. -/
def TaskManager.list_tasks (tasks : List Task) (show_all : Bool) : List Task :=
  tasks.filter (fun t => show_all || !t.completed)

/-- TaskManager.search_tasks: lowercase the keyword, keep the tasks whose
lowercased title or description contains it. -/
def TaskManager.search_tasks (keyword : String) (tasks : List Task) : List Task :=
  let kw := lowerStr keyword
  tasks.filter (fun t =>
    containsStr (lowerStr t.title) kw || containsStr (lowerStr t.description) kw)

/-- The completion rate TaskManager.show_stats computes:
completed / created * 100 when created > 0, else the printed 0.  Python's
float arithmetic is modelled by exact rationals. -/
def TaskManager.show_stats_rate (s : Stats) : ℚ :=
  if s.created > 0 then (s.completed : ℚ) / (s.created : ℚ) * 100 else 0

/-- The rate as displayed by the format `.2f`, in hundredths of a percent
(25.00 displays as 2500 hundredths). -/
def ratePercentHundredths (s : Stats) : ℤ :=
  round (TaskManager.show_stats_rate s * 100)

/-! ### Operation sequences, for the invariant claims -/

/-- A Storage-level mutation: add a task or delete by id. -/
inductive Op where
  | add (t : Task)
  | del (task_id : String)
deriving DecidableEq

/-- Number of add operations in a sequence. -/
def numAdds : List Op → Nat
  | [] => 0
  | Op.add _ :: rest => numAdds rest + 1
  | Op.del _ :: rest => numAdds rest

/-- The ids of the tasks an operation sequence adds, in order. -/
def addedIds : List Op → List String
  | [] => []
  | Op.add t :: rest => t.id :: addedIds rest
  | Op.del _ :: rest => addedIds rest

/-- Run a sequence of operations, also counting the delete calls that
returned True (successful deletions). -/
def runCount : List Op → Storage → Storage × Nat
  | [], st => (st, 0)
  | Op.add t :: rest, st => runCount rest (st.add_task t)
  | Op.del i :: rest, st =>
    let p := st.delete_task i
    let q := runCount rest p.1
    (q.1, q.2 + (if p.2 then 1 else 0))

/-- A fresh Storage over an absent backing file: the empty store. -/
def emptyStorage : Storage :=
  { data := emptyState, file := FileContent.missing }

/-- The inputs of one TaskManager.create_task call: the generated id and
timestamp (environment) and the three console strings. -/
structure CreateReq where
  fresh_id : String
  title : String
  description : String
  priority : String
  created_at : String
deriving DecidableEq

/-- Run a sequence of create_task calls. -/
def runCreates : List CreateReq → Storage → Storage
  | [], st => st
  | r :: rest, st =>
    runCreates rest
      (TaskManager.create_task st r.fresh_id r.title r.description r.priority r.created_at)

/-! ### Helper lemmas -/

lemma leadsWith_iff (n : List Char) : ∀ h : List Char,
    (leadsWith n h = true ↔ ∃ r, h = n ++ r) := by
  induction n with
  | nil => intro h; simp [leadsWith]
  | cons a as ih =>
    intro h
    cases h with
    | nil => simp [leadsWith]
    | cons b bs =>
      show (a == b && leadsWith as bs) = true ↔ ∃ r, b :: bs = a :: as ++ r
      rw [Bool.and_eq_true, beq_iff_eq, ih bs]
      constructor
      · rintro ⟨rfl, r, rfl⟩; exact ⟨r, rfl⟩
      · rintro ⟨r, hr⟩
        rw [List.cons_append, List.cons.injEq] at hr
        exact ⟨hr.1.symm, r, hr.2⟩

lemma containsSub_iff (n : List Char) : ∀ h : List Char,
    (containsSub n h = true ↔ ∃ l r, h = l ++ n ++ r) := by
  intro h
  induction h with
  | nil =>
    show n.isEmpty = true ↔ ∃ l r, [] = l ++ n ++ r
    rw [List.isEmpty_iff]
    constructor
    · rintro rfl; exact ⟨[], [], rfl⟩
    · rintro ⟨l, r, hlr⟩
      rcases List.append_eq_nil.mp hlr.symm with ⟨h1, h2⟩
      exact (List.append_eq_nil.mp h1).2
  | cons c t ih =>
    rw [containsSub, Bool.or_eq_true, leadsWith_iff, ih]
    constructor
    · rintro (⟨r, hr⟩ | ⟨l, r, hlr⟩)
      · exact ⟨[], r, by simp [hr]⟩
      · exact ⟨c :: l, r, by simp [hlr]⟩
    · rintro ⟨l, r, hlr⟩
      cases l with
      | nil => exact Or.inl ⟨r, by simpa using hlr⟩
      | cons x xs =>
        simp only [List.cons_append, List.cons.injEq, List.append_assoc] at hlr
        exact Or.inr ⟨xs, r, by simp [hlr.2]⟩

lemma containsSub_nil : ∀ h : List Char, containsSub [] h = true := by
  intro h
  cases h with
  | nil => rfl
  | cons c t => simp [containsSub, leadsWith]

lemma listUpdate_not_found (upd : Task → Task) (i : String) (ts : List Task)
    (h : ∀ t ∈ ts, t.id ≠ i) : listUpdate upd i ts = (ts, false) := by
  induction ts with
  | nil => rfl
  | cons a rest ih =>
    have ha := h a (List.mem_cons_self a rest)
    simp [listUpdate, ha, ih (fun t ht => h t (List.mem_cons_of_mem a ht))]

lemma listUpdate_found (upd : Task → Task) (i : String) (ts : List Task)
    (h : ∃ t ∈ ts, t.id = i) :
    ∃ l t r, ts = l ++ t :: r ∧ (∀ u ∈ l, u.id ≠ i) ∧ t.id = i ∧
      listUpdate upd i ts = (l ++ upd t :: r, true) := by
  induction ts with
  | nil => simp at h
  | cons a rest ih =>
    by_cases ha : a.id = i
    · exact ⟨[], a, rest, rfl, by simp, ha, by simp [listUpdate, ha]⟩
    · have h' : ∃ t ∈ rest, t.id = i := by
        rcases h with ⟨t, ht, hti⟩
        rcases List.mem_cons.mp ht with h1 | h1
        · exact absurd (h1 ▸ hti) ha
        · exact ⟨t, h1, hti⟩
      rcases ih h' with ⟨l, t, r, hts, hl, hti, hupd⟩
      refine ⟨a :: l, t, r, by simp [hts], ?_, hti, ?_⟩
      · intro u hu
        rcases List.mem_cons.mp hu with h1 | h1
        · exact h1 ▸ ha
        · exact hl u h1
      · simp [listUpdate, ha, hupd]

lemma filter_length_eq_iff {α : Type} (p : α → Bool) (l : List α) :
    (l.filter p).length = l.length ↔ ∀ a ∈ l, p a = true := by
  constructor
  · intro h
    exact List.filter_eq_self.mp ((List.filter_sublist l).eq_of_length h)
  · intro h
    rw [List.filter_eq_self.mpr h]

lemma nodup_filter_ne_length (i : String) (ts : List Task)
    (hnd : (ts.map Task.id).Nodup) (hmem : ∃ t ∈ ts, t.id = i) :
    (ts.filter (fun t => t.id != i)).length + 1 = ts.length := by
  induction ts with
  | nil => simp at hmem
  | cons a rest ih =>
    rw [List.map_cons, List.nodup_cons] at hnd
    by_cases ha : a.id = i
    · have hall : ∀ t ∈ rest, (t.id != i) = true := by
        intro t ht
        have htne : t.id ≠ i := by
          intro hti
          exact hnd.1 (by rw [ha, ← hti]; exact List.mem_map_of_mem Task.id ht)
        simpa [bne_iff_ne] using htne
      have hkeep := (filter_length_eq_iff (fun t : Task => t.id != i) rest).mpr hall
      simp [List.filter_cons, ha, hkeep]
    · have h' : ∃ t ∈ rest, t.id = i := by
        rcases hmem with ⟨t, ht, hti⟩
        rcases List.mem_cons.mp ht with h1 | h1
        · exact absurd (h1 ▸ hti) ha
        · exact ⟨t, h1, hti⟩
      have hrec := ih hnd.2 h'
      have hfa : (a.id != i) = true := by
        simpa [bne_iff_ne] using ha
      rw [List.filter_cons, if_pos hfa, List.length_cons, List.length_cons]
      omega

lemma decodeTask_encodeTask (t : Task) : decodeTask (encodeTask t) = some t := rfl

lemma decodeTasks_encode (ts : List Task) :
    decodeTasks (ts.map encodeTask) = some ts := by
  induction ts with
  | nil => rfl
  | cons t rest ih => simp [List.map_cons, decodeTasks, decodeTask_encodeTask, ih]

lemma decodeState_encodeState (s : StoreState) :
    decodeState (encodeState s) = some s := by
  simp [decodeState, encodeState, encodeStats, lookupJ, decodeTasks_encode]

lemma runCreates_ids (reqs : List CreateReq) : ∀ st : Storage,
    (runCreates reqs st).data.tasks.map Task.id
      = st.data.tasks.map Task.id ++ reqs.map CreateReq.fresh_id := by
  induction reqs with
  | nil => intro st; simp [runCreates]
  | cons r rest ih =>
    intro st
    simp [runCreates, ih, TaskManager.create_task, Storage.add_task, Storage.save,
      TaskManager.make_task]

lemma runCount_inv (ops : List Op) : ∀ st : Storage,
    (st.data.tasks.map Task.id ++ addedIds ops).Nodup →
    (runCount ops st).1.data.tasks.length + (runCount ops st).2
      = st.data.tasks.length + numAdds ops := by
  induction ops with
  | nil => intro st _; simp [runCount, numAdds]
  | cons op rest ih =>
    intro st h
    cases op with
    | add t =>
      have hids : (st.add_task t).data.tasks.map Task.id
          = st.data.tasks.map Task.id ++ [t.id] := by
        simp [Storage.add_task, Storage.save]
      have h' : ((st.add_task t).data.tasks.map Task.id ++ addedIds rest).Nodup := by
        rw [hids, List.append_assoc]
        simpa [addedIds] using h
      have hrec := ih (st.add_task t) h'
      have hlen : (st.add_task t).data.tasks.length = st.data.tasks.length + 1 := by
        simp [Storage.add_task, Storage.save]
      simp only [runCount, numAdds]
      omega
    | del i =>
      have hnd : (st.data.tasks.map Task.id).Nodup := (List.nodup_append.mp h).1
      have hstep1 : (runCount (Op.del i :: rest) st).1
          = (runCount rest (st.delete_task i).1).1 := rfl
      have hstep2 : (runCount (Op.del i :: rest) st).2
          = (runCount rest (st.delete_task i).1).2
            + (if (st.delete_task i).2 then 1 else 0) := rfl
      have hnum : numAdds (Op.del i :: rest) = numAdds rest := rfl
      by_cases hex : ∃ t ∈ st.data.tasks, t.id = i
      · have hlen1 := nodup_filter_ne_length i st.data.tasks hnd hex
        have hne : (st.data.tasks.filter (fun t => t.id != i)).length
            ≠ st.data.tasks.length := by omega
        have hdel : st.delete_task i
            = (Storage.save { st with data :=
                { st.data with tasks := st.data.tasks.filter (fun t => t.id != i) } },
               true) := by
          simp [Storage.delete_task, hne]
        have hfst : (st.delete_task i).1
            = Storage.save { st with data :=
                { st.data with tasks := st.data.tasks.filter (fun t => t.id != i) } } := by
          rw [hdel]
        have hsnd : (st.delete_task i).2 = true := by rw [hdel]
        have hsubids : List.Sublist
            ((st.delete_task i).1.data.tasks.map Task.id ++ addedIds rest)
            (st.data.tasks.map Task.id ++ addedIds rest) := by
          rw [hfst]
          exact ((List.filter_sublist _).map Task.id).append (List.Sublist.refl _)
        have h' : ((st.delete_task i).1.data.tasks.map Task.id ++ addedIds rest).Nodup :=
          List.Nodup.sublist hsubids (by simpa [addedIds] using h)
        have hrec := ih (st.delete_task i).1 h'
        have hlen : (st.delete_task i).1.data.tasks.length + 1 = st.data.tasks.length := by
          rw [hfst]; exact hlen1
        rw [hstep1, hstep2, hsnd, hnum, if_pos rfl]
        omega
      · have hall : ∀ t ∈ st.data.tasks, (t.id != i) = true := by
          intro t ht
          simp only [bne_iff_ne, ne_eq]
          intro hti
          exact hex ⟨t, ht, hti⟩
        have hkeep : st.data.tasks.filter (fun t => t.id != i) = st.data.tasks :=
          List.filter_eq_self.mpr hall
        have hdel : st.delete_task i = (st, false) := by
          simp [Storage.delete_task, hkeep]
        have hfst : (st.delete_task i).1 = st := by rw [hdel]
        have hsnd : (st.delete_task i).2 = false := by rw [hdel]
        have hrec := ih st (by simpa [addedIds] using h)
        rw [hstep1, hstep2, hsnd, hnum, hfst, if_neg (by simp)]
        omega

/-! ### Concrete records used in witnesses, scenarios and counterexamples -/

/-- A sample active task. -/
def taskA : Task :=
  { id := "a1", title := "First", description := "d", priority := "low",
    created_at := "2026-01-01 10:00:00", completed := false }

/-- A second sample active task, distinct id. -/
def taskB : Task :=
  { id := "b2", title := "Second", description := "d", priority := "high",
    created_at := "2026-01-01 10:05:00", completed := false }

/-- A task that is already completed. -/
def doneTask : Task :=
  { id := "t1", title := "Old", description := "d", priority := "low",
    created_at := "n", completed := true }

/-- A store holding one already-completed task and nonzero counters. -/
def cStore : Storage :=
  { data := { tasks := [doneTask], stats := { created := 3, completed := 1 } },
    file := FileContent.missing }

/-- A task whose description contains "Milk" with a capital M. -/
def milkTask : Task :=
  { id := "m1", title := "Shopping", description := "Get 2% Milk", priority := "low",
    created_at := "n", completed := false }

/-- A task used twice to build an id collision. -/
def dupTask : Task :=
  { id := "a1", title := "x", description := "y", priority := "low",
    created_at := "n", completed := false }

/-! ### Claim theorems -/

/-- C1: on a state containing a task with the given id, complete_task
returns found, sets the first task carrying that id to completed = true
while leaving every other record in place, and increments the
completed-count stat by exactly 1; nothing is assumed about the task's
previous completed flag, so the increment also happens when it was already
completed. -/
theorem completeTask_known (st : Storage) (i : String)
    (h : ∃ t ∈ st.data.tasks, t.id = i) :
    (TaskManager.complete_task st i).2 = true
    ∧ (TaskManager.complete_task st i).1.data.stats.completed
        = st.data.stats.completed + 1
    ∧ ∃ l t r, st.data.tasks = l ++ t :: r ∧ (∀ u ∈ l, u.id ≠ i) ∧ t.id = i
        ∧ (TaskManager.complete_task st i).1.data.tasks
            = l ++ { t with completed := true } :: r := by
  obtain ⟨l, t, r, hts, hl, hti, hupd⟩ :=
    listUpdate_found (fun t => { t with completed := true }) i st.data.tasks h
  refine ⟨?_, ?_, l, t, r, hts, hl, hti, ?_⟩
  · simp [TaskManager.complete_task, Storage.update_task, hupd]
  · simp [TaskManager.complete_task, Storage.update_task, hupd,
      Storage.increment_completed, Storage.save]
  · simp [TaskManager.complete_task, Storage.update_task, hupd,
      Storage.increment_completed, Storage.save]

/-- Witness for C1, on a store whose matching task is already completed:
the call still reports found and still bumps the completed counter. -/
theorem completeTask_known_witness :
    (TaskManager.complete_task cStore "t1").2 = true
    ∧ (TaskManager.complete_task cStore "t1").1.data.stats.completed
        = cStore.data.stats.completed + 1
    ∧ ∃ l t r, cStore.data.tasks = l ++ t :: r ∧ (∀ u ∈ l, u.id ≠ "t1") ∧ t.id = "t1"
        ∧ (TaskManager.complete_task cStore "t1").1.data.tasks
            = l ++ { t with completed := true } :: r :=
  completeTask_known cStore "t1" (by decide)

/-- C2: on a state in which no task has the given id, complete_task returns
not-found as a boolean and leaves the whole Storage — task list, both
counters, and the backing file — exactly as before. -/
theorem completeTask_unknown (st : Storage) (i : String)
    (h : ∀ t ∈ st.data.tasks, t.id ≠ i) :
    TaskManager.complete_task st i = (st, false) := by
  have hupd := listUpdate_not_found (fun t => { t with completed := true }) i st.data.tasks h
  simp [TaskManager.complete_task, Storage.update_task, hupd]

/-- Witness for C2 at a concrete store and unknown id. -/
theorem completeTask_unknown_witness :
    TaskManager.complete_task cStore "zz" = (cStore, false) :=
  completeTask_unknown cStore "zz" (by decide)

/-- C3 counterexample: adding two tasks with the same id and then deleting
that id removes both records in one successful delete, so the final length
(0) differs from adds minus successful deletions (2 - 1 = 1). -/
theorem runSequence_length_counterexample :
    numAdds [Op.add dupTask, Op.add dupTask, Op.del "a1"] = 2
    ∧ (runCount [Op.add dupTask, Op.add dupTask, Op.del "a1"] emptyStorage).2 = 1
    ∧ (runCount [Op.add dupTask, Op.add dupTask, Op.del "a1"] emptyStorage).1.data.tasks.length = 0
    ∧ (runCount [Op.add dupTask, Op.add dupTask, Op.del "a1"] emptyStorage).1.data.tasks.length
        ≠ numAdds [Op.add dupTask, Op.add dupTask, Op.del "a1"]
          - (runCount [Op.add dupTask, Op.add dupTask, Op.del "a1"] emptyStorage).2 := by
  decide

/-- C3 (amended): provided the added tasks carry pairwise distinct ids — the
situation the id generator is meant to produce — the task-list length after
any add/delete sequence from the empty store equals the number of adds minus
the number of delete calls that returned True. -/
theorem runSequence_length (ops : List Op) (h : (addedIds ops).Nodup) :
    (runCount ops emptyStorage).1.data.tasks.length
      = numAdds ops - (runCount ops emptyStorage).2 := by
  have hinv := runCount_inv ops emptyStorage (by simpa [emptyStorage, emptyState] using h)
  have h0 : emptyStorage.data.tasks.length = 0 := rfl
  omega

/-- Witness for the amended C3 on a concrete sequence with distinct ids. -/
theorem runSequence_length_witness :
    (runCount [Op.add taskA, Op.add taskB, Op.del "a1"] emptyStorage).1.data.tasks.length
      = numAdds [Op.add taskA, Op.add taskB, Op.del "a1"]
        - (runCount [Op.add taskA, Op.add taskB, Op.del "a1"] emptyStorage).2 :=
  runSequence_length [Op.add taskA, Op.add taskB, Op.del "a1"] (by decide)

/-- C4: save followed by load on the same backing file round-trips: load
reads back exactly the JSON value save wrote, and that value denotes the
saved in-memory state field-for-field. -/
theorem save_load_roundtrip (st : Storage) (d : Json) :
    (loadRaw (Storage.save st).file d).1 = encodeState st.data
    ∧ decodeState (loadRaw (Storage.save st).file d).1 = some st.data :=
  ⟨rfl, decodeState_encodeState st.data⟩

/-- C5 counterexample: the priority input "LOW" is not one of the literal
strings low/medium/high, yet the created task stores "low" — neither the
input unchanged nor "medium", contradicting the claim either way. -/
theorem createTask_priority_counterexample :
    ¬ ("LOW" = "low" ∨ "LOW" = "medium" ∨ "LOW" = "high")
    ∧ (TaskManager.make_task "i1" "T" "D" "LOW" "n").priority = "low"
    ∧ (TaskManager.make_task "i1" "T" "D" "LOW" "n").priority ≠ "medium"
    ∧ (TaskManager.make_task "i1" "T" "D" "LOW" "n").priority ≠ "LOW" := by
  decide

/-- C5 (amended): create_task lowercases the priority input first; the
lowercased value is stored when it is one of low/medium/high (so an input
already in that set is stored unchanged), and "medium" is stored for every
other input — in particular "urgent" — and the created task has
completed = false. -/
theorem createTask_priority (fresh_id title description p created_at : String) :
    (p ∈ priorities →
        (TaskManager.make_task fresh_id title description p created_at).priority = p)
    ∧ (lowerStr p ∈ priorities →
        (TaskManager.make_task fresh_id title description p created_at).priority = lowerStr p)
    ∧ (lowerStr p ∉ priorities →
        (TaskManager.make_task fresh_id title description p created_at).priority = "medium")
    ∧ (TaskManager.make_task fresh_id title description p created_at).completed = false := by
  refine ⟨?_, ?_, ?_, rfl⟩
  · intro hp
    have hlow : lowerStr p = p := by
      have hp' := hp
      simp only [priorities, List.mem_cons, List.not_mem_nil, or_false] at hp'
      rcases hp' with rfl | rfl | rfl <;> decide
    simp [TaskManager.make_task, hlow, hp]
  · intro hp
    simp [TaskManager.make_task, hp]
  · intro hp
    simp [TaskManager.make_task, hp]

/-- Witness for the amended C5: the spec scenario "Buy milk" with priority
"urgent" stores priority "medium", completed = false. -/
theorem createTask_priority_witness :
    (TaskManager.make_task "i2" "Buy milk" "2% milk" "urgent" "n").priority = "medium"
    ∧ (TaskManager.make_task "i2" "Buy milk" "2% milk" "urgent" "n").completed = false :=
  ⟨(createTask_priority "i2" "Buy milk" "2% milk" "urgent" "n").2.2.1 (by decide),
   (createTask_priority "i2" "Buy milk" "2% milk" "urgent" "n").2.2.2⟩

/-- C6: search_tasks returns exactly the tasks whose title or description
contains the keyword as a case-insensitive substring, keeping the stored
order (the result is a sublist of the input); the empty keyword matches
every task, and keyword "milk" matches a task whose description contains
"Milk". -/
theorem searchTasks_spec :
    (∀ (kw : String) (ts : List Task) (t : Task),
      t ∈ TaskManager.search_tasks kw ts ↔
        t ∈ ts ∧
        ((∃ l r, (lowerStr t.title).data = l ++ (lowerStr kw).data ++ r)
          ∨ (∃ l r, (lowerStr t.description).data = l ++ (lowerStr kw).data ++ r)))
    ∧ (∀ (kw : String) (ts : List Task),
        List.Sublist (TaskManager.search_tasks kw ts) ts)
    ∧ (∀ ts : List Task, TaskManager.search_tasks "" ts = ts)
    ∧ TaskManager.search_tasks "milk" [milkTask] = [milkTask] := by
  refine ⟨?_, ?_, ?_, by decide⟩
  · intro kw ts t
    simp only [TaskManager.search_tasks]
    rw [List.mem_filter]
    simp only [Bool.or_eq_true, containsStr, containsSub_iff]
  · intro kw ts
    simp only [TaskManager.search_tasks]
    exact List.filter_sublist ts
  · intro ts
    simp only [TaskManager.search_tasks]
    apply List.filter_eq_self.mpr
    intro t ht
    have h0 : lowerStr "" = "" := rfl
    rw [h0]
    simp [containsStr, containsSub_nil]

/-- C7: the completion rate show_stats reports is completed / created × 100
(displayed rounded to two decimal places) when created is nonzero and 0 when
created is 0; created = 4, completed = 1 gives rate 25, displayed 25.00
(2500 hundredths). -/
theorem showStats_rate_spec :
    (∀ s : Stats, s.created = 0 → TaskManager.show_stats_rate s = 0)
    ∧ (∀ s : Stats, s.created ≠ 0 →
        TaskManager.show_stats_rate s = (s.completed : ℚ) / (s.created : ℚ) * 100)
    ∧ TaskManager.show_stats_rate { created := 4, completed := 1 } = 25
    ∧ ratePercentHundredths { created := 4, completed := 1 } = 2500 := by
  refine ⟨?_, ?_, ?_, ?_⟩
  · intro s hs
    simp [TaskManager.show_stats_rate, hs]
  · intro s hs
    rw [TaskManager.show_stats_rate, if_pos (Nat.pos_of_ne_zero hs)]
  · norm_num [TaskManager.show_stats_rate]
  · norm_num [ratePercentHundredths, TaskManager.show_stats_rate, round_eq]

/-- Witness for C7 at created = 0 and at created = 4, completed = 1. -/
theorem showStats_rate_witness :
    TaskManager.show_stats_rate { created := 0, completed := 5 } = 0
    ∧ TaskManager.show_stats_rate { created := 4, completed := 1 }
        = (({ created := 4, completed := 1 } : Stats).completed : ℚ)
            / (({ created := 4, completed := 1 } : Stats).created : ℚ) * 100 :=
  ⟨showStats_rate_spec.1 { created := 0, completed := 5 } rfl,
   showStats_rate_spec.2.1 { created := 4, completed := 1 } (by decide)⟩

/-- C8 counterexample: a backing file holding the JSON value 5 is an invalid
backing file, yet load installs it verbatim — no warning, no fallback to the
empty state — and the subsequent get_tasks access fails (KeyError/TypeError)
instead of behaving like a fresh empty store. -/
theorem load_invalid_shape_counterexample :
    loadRaw (FileContent.content (Json.num 5)) defaultData = (Json.num 5, false)
    ∧ (loadRaw (FileContent.content (Json.num 5)) defaultData).1 ≠ defaultData
    ∧ getTasksRaw (loadRaw (FileContent.content (Json.num 5)) defaultData).1 = none
    ∧ getTasksRaw defaultData = some (Json.arr []) := by
  refine ⟨rfl, ?_, rfl, rfl⟩
  intro hcontra
  exact Json.noConfusion hcontra

/-- C8 (amended): at startup the in-memory data is the empty default state;
load leaves it untouched when the file is missing, and keeps it while
printing the warning when opening or JSON-parsing raises (unreadable file or
non-JSON content), so subsequent operations see the empty store; but a file
that parses as JSON is installed as-is, without shape validation or
fallback. -/
theorem load_fallback (d j : Json) :
    loadRaw FileContent.missing defaultData = (defaultData, false)
    ∧ loadRaw FileContent.corrupt defaultData = (defaultData, true)
    ∧ loadRaw (FileContent.content j) d = (j, false)
    ∧ decodeState defaultData = some emptyState :=
  ⟨rfl, rfl, rfl, rfl⟩

/-- C9 counterexample: the program never checks generated ids against stored
ones — two create_task calls whose generated ids collide succeed and leave
two tasks sharing one id, so uniqueness is not enforced. -/
theorem uniqueIds_counterexample :
    ((runCreates [⟨"abc", "t1", "d1", "low", "n1"⟩, ⟨"abc", "t2", "d2", "low", "n2"⟩]
        emptyStorage).data.tasks.map Task.id) = ["abc", "abc"]
    ∧ ¬ ((runCreates [⟨"abc", "t1", "d1", "low", "n1"⟩, ⟨"abc", "t2", "d2", "low", "n2"⟩]
        emptyStorage).data.tasks.map Task.id).Nodup := by
  decide

/-- C9 (amended): create_task attaches the generated id to the stored task
verbatim and never discards or rewrites ids, so task ids are pairwise
distinct exactly when the generator outputs are fresh: if the existing ids
together with the generated ones are pairwise distinct, then after the
creations all stored ids are pairwise distinct. -/
theorem uniqueIds_of_fresh (reqs : List CreateReq) (st : Storage)
    (h : (st.data.tasks.map Task.id ++ reqs.map CreateReq.fresh_id).Nodup) :
    ((runCreates reqs st).data.tasks.map Task.id).Nodup := by
  rw [runCreates_ids]
  exact h

/-- Witness for the amended C9 on two creations with distinct fresh ids. -/
theorem uniqueIds_of_fresh_witness :
    ((runCreates [⟨"abc", "t1", "d1", "low", "n1"⟩, ⟨"xyz", "t2", "d2", "low", "n2"⟩]
        emptyStorage).data.tasks.map Task.id).Nodup :=
  uniqueIds_of_fresh _ emptyStorage (by decide)

/-- C10: delete_task removes every record carrying the given id, returns
True exactly when at least one record was removed, rewrites the backing file
only in that case (otherwise the Storage is returned unchanged), and keeps
the surviving records field-for-field unchanged in their original relative
order; deleting one of two freshly added tasks leaves exactly the other in
list_tasks with show_all = true. -/
theorem deleteTask_spec :
    (∀ (st : Storage) (i : String),
      List.Sublist (st.delete_task i).1.data.tasks st.data.tasks
      ∧ (∀ t : Task, t ∈ (st.delete_task i).1.data.tasks ↔ t ∈ st.data.tasks ∧ t.id ≠ i)
      ∧ ((st.delete_task i).2 = true ↔ ∃ t ∈ st.data.tasks, t.id = i)
      ∧ ((st.delete_task i).2 = true →
          (st.delete_task i).1.file
            = FileContent.content (encodeState (st.delete_task i).1.data))
      ∧ ((st.delete_task i).2 = false → (st.delete_task i).1 = st))
    ∧ TaskManager.list_tasks
        (((emptyStorage.add_task taskA).add_task taskB).delete_task "a1").1.data.tasks true
      = [taskB] := by
  refine ⟨?_, by decide⟩
  intro st i
  by_cases hc : (st.data.tasks.filter (fun t => t.id != i)).length ≠ st.data.tasks.length
  · have hdel : st.delete_task i
        = (Storage.save { st with data :=
            { st.data with tasks := st.data.tasks.filter (fun t => t.id != i) } },
           true) := by
      simp [Storage.delete_task, hc]
    have hex : ∃ t ∈ st.data.tasks, t.id = i := by
      by_contra hno
      apply hc
      apply (filter_length_eq_iff _ _).mpr
      intro t ht
      simp only [bne_iff_ne, ne_eq]
      intro hti
      exact hno ⟨t, ht, hti⟩
    refine ⟨?_, ?_, ?_, ?_, ?_⟩
    · rw [hdel]
      exact List.filter_sublist _
    · intro t
      rw [hdel]
      show t ∈ st.data.tasks.filter (fun t => t.id != i) ↔ _
      rw [List.mem_filter]
      simp [bne_iff_ne]
    · simp [hdel, hex]
    · intro _
      rw [hdel]
      rfl
    · intro hcontra
      rw [hdel] at hcontra
      simp at hcontra
  · have heq := not_ne_iff.mp hc
    have hall := (filter_length_eq_iff (fun t : Task => t.id != i) st.data.tasks).mp heq
    have hkeep : st.data.tasks.filter (fun t => t.id != i) = st.data.tasks :=
      List.filter_eq_self.mpr hall
    have hdel : st.delete_task i = (st, false) := by
      simp [Storage.delete_task, hkeep]
    refine ⟨?_, ?_, ?_, ?_, ?_⟩
    · rw [hdel]
    · intro t
      rw [hdel]
      constructor
      · intro ht
        refine ⟨ht, ?_⟩
        have := hall t ht
        simpa [bne_iff_ne] using this
      · exact fun ht => ht.1
    · rw [hdel]
      constructor
      · intro hcontra
        exact absurd hcontra (by simp)
      · rintro ⟨t, ht, hti⟩
        have := hall t ht
        rw [hti] at this
        simp at this
    · intro hcontra
      rw [hdel] at hcontra
      exact absurd hcontra (by simp)
    · intro _
      rw [hdel]

/-- Witness for C10: a delete that removes nothing returns the Storage
untouched. -/
theorem deleteTask_spec_witness :
    ((emptyStorage.add_task taskA).delete_task "zz").1 = emptyStorage.add_task taskA :=
  (deleteTask_spec.1 (emptyStorage.add_task taskA) "zz").2.2.2.2 (by decide)

end TaskApp
